import Mathlib

set_option maxRecDepth 8192

/-!
# Verification of the time-verify-ai batch extraction pipeline

Shallow embedding of `app.py`: the batch extraction engine
(`process_images_in_batches`), the file extraction worker
(`process_single_file` / `extract_timesheet_data_with_claude`), the job
orchestrator (`process_files_bulk`, `process_bulk`) and the result download
endpoint (`download_result`), together with proofs of the specified
properties.
-/

namespace TimeVerify

/-- An exact decimal number `m / 10 ^ s`.  JSON numbers (and the hours sums
Python accumulates from them) are modelled as exact decimals; the roundoff of
Python's binary floats is abstracted away — no verified property depends on
the numeric value of a float. -/
structure Dec where
  m : Int
  s : Nat
  deriving Repr, DecidableEq

/-- Exact addition of decimals, aligning the scales. -/
def Dec.add (a b : Dec) : Dec :=
  if a.s ≤ b.s then ⟨a.m * ((10 ^ (b.s - a.s) : Nat) : Int) + b.m, b.s⟩
  else ⟨a.m + b.m * ((10 ^ (a.s - b.s) : Nat) : Int), a.s⟩

/-- JSON values as produced by Python's `json.loads`.  (Python distinguishes
`int` and `float`; no verified property depends on that distinction.) -/
inductive Json where
  | null : Json
  | bool (b : Bool) : Json
  | num (d : Dec) : Json
  | str (s : String) : Json
  | arr (l : List Json) : Json
  | obj (kvs : List (String × Json)) : Json
  deriving Repr

mutual

/-- Decidable equality on `Json` (the automatic derivation does not handle
the nested occurrence of `List Json`). -/
def Json.decEq : (a b : Json) → Decidable (a = b)
  | .null, .null => isTrue rfl
  | .null, .bool _ => isFalse nofun
  | .null, .num _ => isFalse nofun
  | .null, .str _ => isFalse nofun
  | .null, .arr _ => isFalse nofun
  | .null, .obj _ => isFalse nofun
  | .bool _, .null => isFalse nofun
  | .bool a, .bool b =>
    if h : a = b then isTrue (by rw [h]) else isFalse (fun hh => h (Json.bool.inj hh))
  | .bool _, .num _ => isFalse nofun
  | .bool _, .str _ => isFalse nofun
  | .bool _, .arr _ => isFalse nofun
  | .bool _, .obj _ => isFalse nofun
  | .num _, .null => isFalse nofun
  | .num _, .bool _ => isFalse nofun
  | .num a, .num b =>
    if h : a = b then isTrue (by rw [h]) else isFalse (fun hh => h (Json.num.inj hh))
  | .num _, .str _ => isFalse nofun
  | .num _, .arr _ => isFalse nofun
  | .num _, .obj _ => isFalse nofun
  | .str _, .null => isFalse nofun
  | .str _, .bool _ => isFalse nofun
  | .str _, .num _ => isFalse nofun
  | .str a, .str b =>
    if h : a = b then isTrue (by rw [h]) else isFalse (fun hh => h (Json.str.inj hh))
  | .str _, .arr _ => isFalse nofun
  | .str _, .obj _ => isFalse nofun
  | .arr _, .null => isFalse nofun
  | .arr _, .bool _ => isFalse nofun
  | .arr _, .num _ => isFalse nofun
  | .arr _, .str _ => isFalse nofun
  | .arr a, .arr b =>
    match Json.decEqList a b with
    | isTrue h => isTrue (by rw [h])
    | isFalse h => isFalse (fun hh => h (Json.arr.inj hh))
  | .arr _, .obj _ => isFalse nofun
  | .obj _, .null => isFalse nofun
  | .obj _, .bool _ => isFalse nofun
  | .obj _, .num _ => isFalse nofun
  | .obj _, .str _ => isFalse nofun
  | .obj _, .arr _ => isFalse nofun
  | .obj a, .obj b =>
    match Json.decEqObj a b with
    | isTrue h => isTrue (by rw [h])
    | isFalse h => isFalse (fun hh => h (Json.obj.inj hh))

/-- Decidable equality on lists of `Json`. -/
def Json.decEqList : (a b : List Json) → Decidable (a = b)
  | [], [] => isTrue rfl
  | [], _ :: _ => isFalse nofun
  | _ :: _, [] => isFalse nofun
  | x :: xs, y :: ys =>
    match Json.decEq x y with
    | isTrue h1 =>
      (match Json.decEqList xs ys with
       | isTrue h2 => isTrue (by rw [h1, h2])
       | isFalse h2 => isFalse (fun hh => h2 (List.cons.inj hh).2))
    | isFalse h1 => isFalse (fun hh => h1 (List.cons.inj hh).1)

/-- Decidable equality on association lists of `String × Json`. -/
def Json.decEqObj : (a b : List (String × Json)) → Decidable (a = b)
  | [], [] => isTrue rfl
  | [], _ :: _ => isFalse nofun
  | _ :: _, [] => isFalse nofun
  | (k, v) :: xs, (l, w) :: ys =>
    if hk : k = l then
      match Json.decEq v w with
      | isTrue h1 =>
        (match Json.decEqObj xs ys with
         | isTrue h2 => isTrue (by rw [hk, h1, h2])
         | isFalse h2 => isFalse (fun hh => h2 (List.cons.inj hh).2))
      | isFalse h1 =>
        isFalse (fun hh => h1 (congrArg Prod.snd (List.cons.inj hh).1))
    else isFalse (fun hh => hk (congrArg Prod.fst (List.cons.inj hh).1))

end

instance : DecidableEq Json := Json.decEq

instance {ε α : Type} [DecidableEq ε] [DecidableEq α] : DecidableEq (Except ε α) := by
  intro a b
  cases a <;> cases b
  case error.error e1 e2 =>
    exact if h : e1 = e2 then isTrue (by rw [h]) else isFalse (fun hh => h (by injection hh))
  case ok.ok a1 a2 =>
    exact if h : a1 = a2 then isTrue (by rw [h]) else isFalse (fun hh => h (by injection hh))
  case error.ok e1 a2 => exact isFalse nofun
  case ok.error a1 e2 => exact isFalse nofun

/-- Model of `d[k] = v` on a Python dict modelled as an association list with unique
keys: replace the value in place if the key exists (its position is kept),
else append the new key. -/
def dictSet (kvs : List (String × Json)) (k : String) (v : Json) : List (String × Json) :=
  if kvs.any (fun p => p.1 == k) then kvs.map (fun p => if p.1 == k then (k, v) else p)
  else kvs ++ [(k, v)]

/-- Repeated keys in a JSON object literal: `json.loads` builds a Python
dict, so a later duplicate key replaces the earlier value at the earlier
key's position. -/
def dedupKeys (l : List (String × Json)) : List (String × Json) :=
  l.foldl (fun acc kv => dictSet acc kv.1 kv.2) []

/-! ## A model of Python's `json.loads`

`json.loads` implements the JSON grammar: a value is `null`, `true`, `false`,
a number, a string, an array or an object, with insignificant whitespace
(space, tab, newline, carriage return) around structural tokens.  Strict mode
rejects unescaped control characters inside strings.  Python additionally
accepts the non-standard constants `NaN`/`Infinity`, which never occur in the
texts this development evaluates and are not modelled. -/

/-- JSON insignificant whitespace. -/
def isJsonWs (c : Char) : Bool :=
  c = ' ' || c = '\t' || c = '\n' || c = '\r'

/-- Drop leading JSON whitespace. -/
def skipWs : List Char → List Char
  | [] => []
  | c :: cs => if isJsonWs c then skipWs cs else c :: cs

/-- Hex digit value, for `\uXXXX` string escapes. -/
def hexVal (c : Char) : Option Nat :=
  if '0' ≤ c ∧ c ≤ '9' then some (c.toNat - 48)
  else if 'a' ≤ c ∧ c ≤ 'f' then some (c.toNat - 87)
  else if 'A' ≤ c ∧ c ≤ 'F' then some (c.toNat - 55)
  else none

/-- Parse the body of a JSON string, the opening quote already consumed.
Returns the decoded characters and the remaining input.  Strict mode: raw
control characters (code point < 0x20) are rejected.  Surrogate-pair
combination for `\u` escapes is not modelled (no evaluated text uses it). -/
def parseStringBody : List Char → Option (List Char × List Char)
  | [] => none
  | '"' :: rest => some ([], rest)
  | '\\' :: rest =>
    match rest with
    | [] => none
    | 'u' :: a :: b :: c :: d :: rest' =>
      match hexVal a, hexVal b, hexVal c, hexVal d with
      | some x, some y, some z, some w =>
        (parseStringBody rest').map fun (s, r) =>
          (Char.ofNat (((x * 16 + y) * 16 + z) * 16 + w) :: s, r)
      | _, _, _, _ => none
    | e :: rest' =>
      let dec : Option Char :=
        if e = '"' then some '"'
        else if e = '\\' then some '\\'
        else if e = '/' then some '/'
        else if e = 'b' then some (Char.ofNat 8)
        else if e = 'f' then some (Char.ofNat 12)
        else if e = 'n' then some '\n'
        else if e = 'r' then some '\r'
        else if e = 't' then some '\t'
        else none
      match dec with
      | some ch => (parseStringBody rest').map fun (s, r) => (ch :: s, r)
      | none => none
  | c :: rest =>
    if c.toNat < 32 then none
    else (parseStringBody rest).map fun (s, r) => (c :: s, r)

/-- Numeric value of a list of decimal digits. -/
def digitsToNat (ds : List Char) : Nat :=
  ds.foldl (fun n c => 10 * n + (c.toNat - 48)) 0

/-- Apply a decimal exponent of magnitude `e` (negative iff `eneg`) to the
decimal `m / 10 ^ s`. -/
def applyExp (m : Int) (s : Nat) (eneg : Bool) (e : Nat) : Dec :=
  if eneg then ⟨m, s + e⟩
  else if e ≤ s then ⟨m, s - e⟩
  else ⟨m * ((10 ^ (e - s) : Nat) : Int), 0⟩

/-- Parse a JSON number: `-?(0|[1-9][0-9]*)(\.[0-9]+)?([eE][+-]?[0-9]+)?`.
Returns its exact decimal value and the remaining input. -/
def parseNumber (cs : List Char) : Option (Dec × List Char) :=
  let (neg, cs1) := match cs with
    | '-' :: t => (true, t)
    | _ => (false, cs)
  let intDigits := cs1.takeWhile Char.isDigit
  let cs2 := cs1.dropWhile Char.isDigit
  if intDigits.isEmpty then none
  else if intDigits.head? = some '0' ∧ intDigits.length > 1 then none
  else
    match cs2 with
    | '.' :: t =>
      let fd := t.takeWhile Char.isDigit
      if fd.isEmpty then none  -- a '.' not followed by a digit is a syntax error
      else
        let mAbs : Int := ((digitsToNat intDigits * 10 ^ fd.length + digitsToNat fd : Nat) : Int)
        parseNumberExp (if neg then -mAbs else mAbs) fd.length (t.dropWhile Char.isDigit)
    | _ =>
      let mAbs : Int := ((digitsToNat intDigits : Nat) : Int)
      parseNumberExp (if neg then -mAbs else mAbs) 0 cs2
where
  /-- Parse the optional exponent part and finish the number. -/
  parseNumberExp (m : Int) (s : Nat) (cs : List Char) : Option (Dec × List Char) :=
    match cs with
    | 'e' :: t => parseExpDigits m s t
    | 'E' :: t => parseExpDigits m s t
    | _ => some (⟨m, s⟩, cs)
  /-- Parse `[+-]?[0-9]+` after `e`/`E` and apply it. -/
  parseExpDigits (m : Int) (s : Nat) (cs : List Char) : Option (Dec × List Char) :=
    let (eneg, cs1) := match cs with
      | '-' :: t => (true, t)
      | '+' :: t => (false, t)
      | _ => (false, cs)
    let ed := cs1.takeWhile Char.isDigit
    if ed.isEmpty then none
    else some (applyExp m s eneg (digitsToNat ed), cs1.dropWhile Char.isDigit)

/-- Parsing mode for the recursive-descent core: a whole value, the elements
of an array after its `[` (first element not yet parsed), or the members of
an object after its `{` (first key not yet parsed). -/
inductive PMode where
  | value : PMode
  | elems : PMode
  | members : PMode

/-- Result of one core parsing step. -/
inductive PRes where
  | v (j : Json) : PRes
  | vs (l : List Json) : PRes
  | kvs (l : List (String × Json)) : PRes

/-- Recursive-descent core of the `json.loads` model, fuelled (structural on
the fuel so that concrete parses reduce definitionally).  `.value` parses one
JSON value; `.elems` parses `value (',' value)* ']'`; `.members` parses
`string ':' value (',' string ':' value)* '}'`. -/
def parseCore : Nat → PMode → List Char → Option (PRes × List Char)
  | 0, _, _ => none
  | Nat.succ fuel, PMode.value, cs =>
    match skipWs cs with
    | [] => none
    | c :: rest =>
      if c = '{' then
        match skipWs rest with
        | '}' :: r => some (PRes.v (Json.obj []), r)
        | _ =>
          match parseCore fuel PMode.members rest with
          | some (PRes.kvs l, r) => some (PRes.v (Json.obj (dedupKeys l)), r)
          | _ => none
      else if c = '[' then
        match skipWs rest with
        | ']' :: r => some (PRes.v (Json.arr []), r)
        | _ =>
          match parseCore fuel PMode.elems rest with
          | some (PRes.vs l, r) => some (PRes.v (Json.arr l), r)
          | _ => none
      else if c = '"' then
        (parseStringBody rest).map fun (s, r) => (PRes.v (Json.str (String.mk s)), r)
      else if c = 't' then
        match rest with
        | 'r' :: 'u' :: 'e' :: r => some (PRes.v (Json.bool true), r)
        | _ => none
      else if c = 'f' then
        match rest with
        | 'a' :: 'l' :: 's' :: 'e' :: r => some (PRes.v (Json.bool false), r)
        | _ => none
      else if c = 'n' then
        match rest with
        | 'u' :: 'l' :: 'l' :: r => some (PRes.v Json.null, r)
        | _ => none
      else if c = '-' ∨ c.isDigit then
        (parseNumber (c :: rest)).map fun (d, r) => (PRes.v (Json.num d), r)
      else none
  | Nat.succ fuel, PMode.elems, cs =>
    match parseCore fuel PMode.value cs with
    | some (PRes.v j, r) =>
      (match skipWs r with
       | ',' :: r2 =>
         match parseCore fuel PMode.elems r2 with
         | some (PRes.vs l, r3) => some (PRes.vs (j :: l), r3)
         | _ => none
       | ']' :: r2 => some (PRes.vs [j], r2)
       | _ => none)
    | _ => none
  | Nat.succ fuel, PMode.members, cs =>
    match skipWs cs with
    | '"' :: r =>
      match parseStringBody r with
      | some (k, r1) =>
        (match skipWs r1 with
         | ':' :: r2 =>
           match parseCore fuel PMode.value r2 with
           | some (PRes.v j, r3) =>
             (match skipWs r3 with
              | ',' :: r4 =>
                match parseCore fuel PMode.members r4 with
                | some (PRes.kvs l, r5) => some (PRes.kvs ((String.mk k, j) :: l), r5)
                | _ => none
              | '}' :: r4 => some (PRes.kvs [(String.mk k, j)], r4)
              | _ => none)
           | _ => none
         | _ => none)
      | none => none
    | _ => none

/-- The model of `json.loads text`: parse one value, require only whitespace
to remain (`json.loads` rejects trailing garbage).  `some v` is a successful
parse, `none` a raised `json.JSONDecodeError`.  The fuel `length + 1`
suffices: each recursive descent consumes at least one input character. -/
def parseJson (s : String) : Option Json :=
  match parseCore (s.length + 1) PMode.value s.toList with
  | some (PRes.v j, r) => if (skipWs r).isEmpty then some j else none
  | _ => none

/-! ## The fallback extraction: `re.search(r'\[.*?\]', response_text, re.DOTALL)`

With `re.DOTALL` the dot matches every character, so the leftmost-then-shortest
match of `\[.*?\]` is the substring running from the first `[` of the text to
the first `]` strictly after it (if the first `[` has no `]` after it, no
later `[` has one either, so there is no match). -/

/-- The suffix of the input starting at its first `[` (empty if there is
none). -/
def dropUntilLBrack : List Char → List Char
  | [] => []
  | c :: t => if c = '[' then c :: t else dropUntilLBrack t

/-- The prefix of the input up to and including its first `]`, or `none`. -/
def takeThroughRBrack : List Char → Option (List Char)
  | [] => none
  | c :: t => if c = ']' then some [c] else (takeThroughRBrack t).map (c :: ·)

/-- Model of `re.search(r'\[.*?\]', s, re.DOTALL).group()`: the substring from
the first `[` of `s` through the first `]` after it. -/
def reSearchBracket (s : String) : Option String :=
  match dropUntilLBrack s.toList with
  | [] => none
  | c :: t => (takeThroughRBrack t).map (fun m => String.mk (c :: m))

/-- Scan for the close bracket matching an already-seen `[`, at nesting depth
`d ≥ 1`, returning everything through that matching `]`. -/
def balancedTake : Nat → List Char → Option (List Char)
  | _, [] => none
  | d, c :: t =>
    if c = '[' then (balancedTake (d + 1) t).map (c :: ·)
    else if c = ']' then
      if d = 1 then some [c] else (balancedTake (d - 1) t).map (c :: ·)
    else (balancedTake d t).map (c :: ·)

/-- Modelled from the spec: "the first balanced bracketed array substring" of
a text — from the first `[` through its matching `]`, counting bracket depth.
This is the recovery the spec describes; it is compared against the source's
`reSearchBracket`. -/
def firstBalancedArray (s : String) : Option String :=
  match dropUntilLBrack s.toList with
  | [] => none
  | c :: t => (balancedTake 1 t).map (fun m => String.mk (c :: m))

/-! ## The batch extraction engine: `process_images_in_batches`

The response of an inference call is modelled as `Except Unit String`:
`.error ()` is a raised exception anywhere in the per-batch `try` block
(encoding failure or transport/service failure of
`claude_client.messages.create`), `.ok t` the stripped `response_text`.
(`.strip()` only removes outer whitespace; both `json.loads` and the bracket
search are insensitive to it, so the model works with the stripped text.) -/

/-- The parsing of one batch response text (`app.py` lines 211–234): strict
`json.loads`; on failure, recovery via the bracket regex and a second
`json.loads`; `some l` iff a JSON array was obtained, `none` when the batch
is skipped or the parsed value is not an array. -/
def batchParse (t : String) : Option (List Json) :=
  match parseJson t with
  | some (Json.arr l) => some l
  | some _ => none          -- isinstance check fails: warning, no entries
  | none =>
    match reSearchBracket t with
    | some sub =>
      (match parseJson sub with
       | some (Json.arr l) => some l
       | some _ => none     -- parsed but not a list: no extend
       | none => none)      -- could not parse JSON: continue
    | none => none          -- no JSON found in response: continue

/-- The entries a single batch contributes to `all_entries`. -/
def batchContribution (r : Except Unit String) : List Json :=
  match r with
  | .error _ => []          -- exception: logged, `continue`
  | .ok t => (batchParse t).getD []

/-- The accumulator `all_entries` after the loop of `process_images_in_batches`, given the
per-batch inference outcomes in batch order: each batch appends its
contribution to the running accumulator. -/
def runBatches (responses : List (Except Unit String)) : List Json :=
  responses.foldl (fun acc r => acc ++ batchContribution r) []

/-- The batching of the loop `for i in range(0, len(images), 4):
batch = images[i:i + 4]`: contiguous slices of at most 4 images (the slice
`l[i:i+4]` is all of the remainder when fewer than 4 images are left). -/
def chunk4 {α : Type} : List α → List (List α)
  | [] => []
  | a :: b :: c :: d :: t => [a, b, c, d] :: chunk4 t
  | l => [l]

/-- Model of `process_images_in_batches images filename`: the inference service is an
oracle `infer` mapping each batch (in order, with its index) to an outcome;
the function returns the accumulated `all_entries`.  The filename only enters
the prompt text, which the oracle already accounts for. -/
def process_images_in_batches {α : Type} (images : List α)
    (infer : Nat → List α → Except Unit String) : List Json :=
  runBatches (((chunk4 images).enum).map fun (i, b) => infer i b)

/-! ## Properties of the batching -/

theorem chunk4_join {α : Type} : ∀ (l : List α), (chunk4 l).flatten = l
  | [] => rfl
  | [_] => by simp [chunk4]
  | [_, _] => by simp [chunk4]
  | [_, _, _] => by simp [chunk4]
  | a :: b :: c :: d :: t => by
      simp only [chunk4, List.flatten_cons, chunk4_join t]
      rfl

theorem chunk4_length {α : Type} : ∀ (l : List α), (chunk4 l).length = (l.length + 3) / 4
  | [] => by simp [chunk4]
  | [_] => by simp [chunk4]
  | [_, _] => by simp [chunk4]
  | [_, _, _] => by simp [chunk4]
  | a :: b :: c :: d :: t => by
      have ih := chunk4_length t
      simp only [chunk4, List.length_cons] at *
      omega

theorem chunk4_le4 {α : Type} : ∀ (l : List α), ∀ b ∈ chunk4 l, b.length ≤ 4
  | [] => by simp [chunk4]
  | [_] => by simp [chunk4]
  | [_, _] => by simp [chunk4]
  | [_, _, _] => by simp [chunk4]
  | a :: b :: c :: d :: t => by
      intro x hx
      simp only [chunk4, List.mem_cons] at hx
      rcases hx with h | h
      · simp [h]
      · exact chunk4_le4 t x h

theorem chunk4_dropLast {α : Type} :
    ∀ (l : List α), ∀ b ∈ (chunk4 l).dropLast, b.length = 4
  | [] => by simp [chunk4]
  | [_] => by simp [chunk4]
  | [_, _] => by simp [chunk4]
  | [_, _, _] => by simp [chunk4]
  | a :: b :: c :: d :: t => by
      intro x hx
      rw [chunk4] at hx
      rcases h : chunk4 t with _ | ⟨y, ys⟩
      · rw [h] at hx; simp at hx
      · rw [h, List.dropLast_cons₂, List.mem_cons] at hx
        rcases hx with hx | hx
        · simp [hx]
        · exact chunk4_dropLast t x (h ▸ hx)

/-- C1: `process_images_in_batches` slices its image list into `⌈N/4⌉`
contiguous batches of at most 4 images, in order, with no overlap and no
gaps: concatenating the batches in order gives back the image list, every
batch except possibly the last has exactly 4 images, and only the last may
be smaller. -/
theorem c1_batching {α : Type} (images : List α) :
    (chunk4 images).length = (images.length + 3) / 4 ∧
    (∀ b ∈ chunk4 images, b.length ≤ 4) ∧
    (∀ b ∈ (chunk4 images).dropLast, b.length = 4) ∧
    (chunk4 images).flatten = images :=
  ⟨chunk4_length images, chunk4_le4 images, chunk4_dropLast images, chunk4_join images⟩

/-- Witness for C1 at the Scenario B shape (5 images → batches of 4 and 1). -/
theorem c1_batching_witness :
    (chunk4 [0, 1, 2, 3, 4]).length = 2 ∧
    [0, 1, 2, 3].length ≤ 4 ∧
    [0, 1, 2, 3].length = 4 ∧
    (chunk4 [0, 1, 2, 3, 4]).flatten = [0, 1, 2, 3, 4] := by
  have h := c1_batching [0, 1, 2, 3, 4]
  exact ⟨h.1, h.2.1 [0, 1, 2, 3] (by decide), h.2.2.1 [0, 1, 2, 3] (by decide), h.2.2.2⟩

/-! ## Per-batch failure isolation -/

/-- The failure conditions of one batch, exactly as the claim lists them: the
inference call raised, the response fails both strict and recovery JSON
parsing, or the value parsed (in either stage) is not an array. -/
def batchFails : Except Unit String → Bool
  | .error _ => true
  | .ok t =>
    match parseJson t with
    | some (Json.arr _) => false
    | some _ => true
    | none =>
      match reSearchBracket t with
      | none => true
      | some sub =>
        match parseJson sub with
        | some (Json.arr _) => false
        | some _ => true
        | none => true

theorem batchContribution_of_fails (r : Except Unit String)
    (h : batchFails r = true) : batchContribution r = [] := by
  cases r with
  | error e => rfl
  | ok t =>
    cases hp : parseJson t with
    | some j =>
      cases j with
      | arr l => simp [batchFails, hp] at h
      | null => simp [batchContribution, batchParse, hp]
      | bool b => simp [batchContribution, batchParse, hp]
      | num d => simp [batchContribution, batchParse, hp]
      | str s => simp [batchContribution, batchParse, hp]
      | obj kvs => simp [batchContribution, batchParse, hp]
    | none =>
      cases hs : reSearchBracket t with
      | none => simp [batchContribution, batchParse, hp, hs]
      | some sub =>
        cases hq : parseJson sub with
        | none => simp [batchContribution, batchParse, hp, hs, hq]
        | some j =>
          cases j with
          | arr l => simp [batchFails, hp, hs, hq] at h
          | null => simp [batchContribution, batchParse, hp, hs, hq]
          | bool b => simp [batchContribution, batchParse, hp, hs, hq]
          | num d => simp [batchContribution, batchParse, hp, hs, hq]
          | str s => simp [batchContribution, batchParse, hp, hs, hq]
          | obj kvs => simp [batchContribution, batchParse, hp, hs, hq]

theorem runBatches_foldl (rs : List (Except Unit String)) :
    ∀ acc : List Json,
      rs.foldl (fun a r => a ++ batchContribution r) acc = acc ++ runBatches rs := by
  induction rs with
  | nil => intro acc; simp [runBatches]
  | cons r rs ih =>
    intro acc
    simp only [runBatches, List.foldl_cons, List.nil_append]
    rw [ih, ih (batchContribution r), List.append_assoc]

theorem runBatches_append (l1 l2 : List (Except Unit String)) :
    runBatches (l1 ++ l2) = runBatches l1 ++ runBatches l2 := by
  simp only [runBatches, List.foldl_append]
  rw [runBatches_foldl l2 (List.foldl (fun a r => a ++ batchContribution r) [] l1)]
  rfl

/-- C2: a batch whose inference call raises, whose response fails strict and
recovery parsing, or whose parsed value is not an array contributes no
entries; the entries accumulated from earlier batches are kept unchanged and
the remaining batches are still processed. -/
theorem c2_failed_batch_isolated (pre post : List (Except Unit String))
    (r : Except Unit String) (h : batchFails r = true) :
    runBatches (pre ++ r :: post) = runBatches pre ++ runBatches post := by
  have : pre ++ r :: post = pre ++ [r] ++ post := by simp
  rw [this, runBatches_append, runBatches_append]
  have hr : runBatches [r] = [] := by
    simp [runBatches, batchContribution_of_fails r h]
  rw [hr]
  simp

/-- Witness for C2: a good first batch, an unparsable second batch, a good
third batch — the result is the concatenation of the two good batches. -/
theorem c2_failed_batch_isolated_witness :
    batchFails (Except.ok "I could not read these images at all.") = true ∧
    runBatches [Except.ok "[true]",
                Except.ok "I could not read these images at all.",
                Except.ok "[false]"] =
      runBatches [Except.ok "[true]"] ++ runBatches [Except.ok "[false]"] := by
  constructor
  · decide
  · exact c2_failed_batch_isolated [Except.ok "[true]"] [Except.ok "[false]"]
      (Except.ok "I could not read these images at all.") (by decide)

/-! ## The recovery parse (C3)

The spec describes the fallback as parsing "the first balanced bracketed
array substring"; the source uses the non-greedy `re.search(r'\[.*?\]', ...)`
which stops at the first `]`.  The two differ as soon as the array nests a
further array. -/

/-- The Scenario D response text. -/
def scenarioDText : String :=
  "Here you go: [\x7b\"employee_name\":\"A\",\"date\":\"06/09/2025\",\"hours\":8.0,\"submission_status\":\"Closed\",\"week\":\"W23\",\"total_hours\":40.0\x7d] Thanks."

/-- The single entry Scenario D's recovery parse must produce. -/
def scenarioDEntry : Json :=
  Json.obj [("employee_name", Json.str "A"), ("date", Json.str "06/09/2025"),
            ("hours", Json.num ⟨80, 1⟩), ("submission_status", Json.str "Closed"),
            ("week", Json.str "W23"), ("total_hours", Json.num ⟨400, 1⟩)]

/-- C3 counterexample: on `A [[1], [2]] B` strict parsing fails and the first
balanced bracketed array substring `[[1], [2]]` parses to a two-element
array, but the engine's non-greedy recovery extracts `[[1]`, fails to parse
it, and skips the batch — it does not parse the balanced substring. -/
theorem c3_counterexample :
    parseJson "A [[1], [2]] B" = none ∧
    firstBalancedArray "A [[1], [2]] B" = some "[[1], [2]]" ∧
    parseJson "[[1], [2]]" =
      some (Json.arr [Json.arr [Json.num ⟨1, 0⟩], Json.arr [Json.num ⟨2, 0⟩]]) ∧
    reSearchBracket "A [[1], [2]] B" = some "[[1]" ∧
    batchParse "A [[1], [2]] B" = none := by
  decide

/-- C3 (amended): when strict parsing fails, the engine recovers by parsing
the substring running from the first `[` of the text to the first `]` after
it (the non-greedy match, which coincides with the first balanced array
substring only when no nested bracket occurs before the close), skipping the
batch if that substring is missing, unparsable, or not an array; for the
Scenario D text this recovery extracts exactly the one entry. -/
theorem c3_recovery_nongreedy :
    (∀ t : String, parseJson t = none →
      batchParse t = ((reSearchBracket t).bind fun sub =>
        match parseJson sub with
        | some (Json.arr l) => some l
        | _ => none)) ∧
    batchParse scenarioDText = some [scenarioDEntry] := by
  constructor
  · intro t h
    simp only [batchParse, h]
    cases reSearchBracket t with
    | none => rfl
    | some sub =>
      simp only [Option.some_bind]
      cases hq : parseJson sub with
      | none => simp [hq]
      | some j => cases j <;> simp [hq]
  · decide

/-- Witness for C3 (amended) at the Scenario D text itself, whose strict
parse fails. -/
theorem c3_recovery_nongreedy_witness :
    batchParse scenarioDText = ((reSearchBracket scenarioDText).bind fun sub =>
      match parseJson sub with
      | some (Json.arr l) => some l
      | _ => none) ∧
    batchParse scenarioDText = some [scenarioDEntry] :=
  ⟨c3_recovery_nongreedy.1 scenarioDText (by decide), c3_recovery_nongreedy.2⟩

/-! ## The global state: job tables and dashboard metrics

Python dictionaries are modelled as association lists with the dictionary
operations (unique keys; `aset` replaces in place, `aerase` removes the
key). -/

/-- Lookup `m[k]`, or `none` where Python would raise `KeyError`. -/
def alookup {β : Type} : List (String × β) → String → Option β
  | [], _ => none
  | (k', v) :: t, k => if k' = k then some v else alookup t k

/-- Assignment `m[k] = v`: replace in place if the key exists (Python dicts keep the
original insertion position), else append. -/
def aset {β : Type} : List (String × β) → String → β → List (String × β)
  | [], k, v => [(k, v)]
  | (k', v') :: t, k, v => if k' = k then (k, v) :: t else (k', v') :: aset t k v

/-- Deletion `del m[k]` (total: deleting an absent key is the identity here; every
modelled deletion is of a present key). -/
def aerase {β : Type} (m : List (String × β)) (k : String) : List (String × β) :=
  m.filter (fun p => p.1 != k)

/-- Job status values. -/
inductive JStatus where
  | processing : JStatus
  | completed : JStatus
  | error : JStatus
  deriving Repr, DecidableEq

/-- One `processing_status[job_id]` record.  The environment-metadata fields
(`redhat_environment`, `platform`, `hostname`) are process-wide constants
never read by the verified logic and are omitted. -/
structure JobStatus where
  status : JStatus
  total : Nat
  processed : Nat
  current_file : String
  total_entries : Nat
  error : Option String := none
  deriving Repr, DecidableEq

/-- The `dashboard_metrics` record. `total_hours` starts as the integer 0 and
accumulates entry hours. -/
structure Metrics where
  total_documents : Nat
  total_hours : Dec
  total_entries : Nat
  total_images : Nat
  deriving Repr, DecidableEq

/-- The module-level mutable state of `app.py`. -/
structure SysState where
  processing_results : List (String × List Json)
  processing_status : List (String × JobStatus)
  dashboard_metrics : Metrics
  deriving Repr, DecidableEq

/-- Mutate the status record of `jid` in place; where the record is absent
Python would raise `KeyError` (each caller models that raise separately —
in every verified run the record exists from submission on). -/
def modifyStatus (st : SysState) (jid : String) (f : JobStatus → JobStatus) : SysState :=
  match alookup st.processing_status jid with
  | some js => { st with processing_status := aset st.processing_status jid (f js) }
  | none => st

/-! ## The file extraction worker

One input document is described by its display name, the images the
container extractor yields for it (`extract_images_from_docx` never raises:
it catches internally and returns a — possibly empty — list; only the count
and order of images matter here, so images are identifiers), and the
inference oracle giving each batch's outcome. -/

structure FileSpec where
  name : String
  images : List Nat
  infer : Nat → List Nat → Except Unit String

/-- The tagging `entry['source_file'] = filename` (`app.py` lines 254–255): item
assignment on a dict replaces the value in place or appends the key; on any
non-dict value it raises `TypeError`. -/
def tagEntry (filename : String) : Json → Except Unit Json
  | Json.obj kvs => .ok (Json.obj (dictSet kvs "source_file" (Json.str filename)))
  | _ => .error ()

/-- Model of `extract_timesheet_data_with_claude images filename`: empty image lists
short-circuit to `[]`; otherwise run the batch engine and tag every entry,
the first non-dict entry raising out of the tagging loop. -/
def extract_timesheet_data_with_claude (images : List Nat) (filename : String)
    (infer : Nat → List Nat → Except Unit String) : Except Unit (List Json) :=
  if images.isEmpty then .ok []
  else (process_images_in_batches images infer).mapM (tagEntry filename)

/-- The status write at the head of `process_single_file` (lines 265–266):
`current_file` is set and `processed` incremented, before any extraction
work. -/
def statusIncrement (st : SysState) (f : FileSpec) (jid : String) : SysState :=
  modifyStatus st jid fun js => { js with current_file := f.name, processed := js.processed + 1 }

/-- The `try` block of `process_single_file`: the status write (raising
`KeyError` when the job id is unknown), the zero-image short-circuit, the
extraction, and — only after a successful extraction — the
`total_images` metric increment (line 287).  Materializing and unlinking the
temp file is not fallible in this model.  State writes made before a raise
persist. -/
def process_single_file_body (st : SysState) (f : FileSpec) (jid : String) :
    SysState × Except Unit (List Json) :=
  if (alookup st.processing_status jid).isNone then (st, .error ())
  else
    let st1 := statusIncrement st f jid
    if f.images.isEmpty then (st1, .ok [])
    else
      match extract_timesheet_data_with_claude f.images f.name f.infer with
      | .ok data =>
        ({ st1 with dashboard_metrics :=
          { st1.dashboard_metrics with
            total_images := st1.dashboard_metrics.total_images + f.images.length } },
         .ok data)
      | .error e => (st1, .error e)

/-- Model of `process_single_file`: the catch-all `except` converts any raise of the
body into an empty entry list (lines 295–297); the total return type is the
model of "never propagates an exception". -/
def process_single_file (st : SysState) (f : FileSpec) (jid : String) :
    SysState × List Json :=
  match process_single_file_body st f jid with
  | (st', .ok data) => (st', data)
  | (st', .error _) => (st', [])

/-! ## The job orchestrator -/

/-- One step of `dashboard_metrics['total_hours'] += entry.get('hours', 0)`:
a missing key adds the default 0; a numeric value adds exactly; a Python
bool is an int (`True == 1`); any other value makes `int/float + value`
raise `TypeError`; a non-dict entry has no `.get` and raises
`AttributeError`.  (Entries reaching this loop are dicts — tagging already
raised on anything else — but the raise paths are modelled anyway.) -/
def addHours (acc : Dec) : Json → Except Unit Dec
  | Json.obj kvs =>
    match alookup kvs "hours" with
    | none => .ok acc
    | some (Json.num d) => .ok (acc.add d)
    | some (Json.bool b) => .ok (acc.add ⟨if b then 1 else 0, 0⟩)
    | some _ => .error ()
  | _ => .error ()

/-- The hours loop of `process_files_bulk` (lines 323–324): entries are
added one at a time into the global counter; a raise mid-loop leaves the
additions already made in place.  Returns the value reached and whether the
loop raised. -/
def sumHoursPartial : List Json → Dec → Dec × Bool
  | [], acc => (acc, false)
  | e :: t, acc =>
    match addHours acc e with
    | .ok acc' => sumHoursPartial t acc'
    | .error _ => (acc, true)

/-- The per-file loop of `process_files_bulk` (lines 305–316): files are
processed strictly in order, each file's entries extended onto `all_data`
(the loop's own `try/except` never fires: `process_single_file` is total;
the `time.sleep(1)` pause does not change state).  Also returns the list of
intermediate states observable by a concurrent status poll: the state right
after each file's status write, and the state after each file. -/
def runFiles : List FileSpec → String → SysState → SysState × List Json × List SysState
  | [], _, st => (st, [], [])
  | f :: t, jid, st =>
    let stMid := statusIncrement st f jid
    let (st1, data) := process_single_file st f jid
    let (st2, rest, tr) := runFiles t jid st1
    (st2, data ++ rest, stMid :: st1 :: tr)

/-- The tail of `process_files_bulk` after the per-file loop (lines
318–336): still inside the orchestrator `try`, increment `total_documents`
by the number of files and `total_entries` by the number of entries, then
accumulate the hours sum entry by entry.  If the hours loop does not raise,
store `processing_results[job_id]` and mark the status completed with
`total_entries`; if it raises, the `except` marks the status `error` with a
message — the metric writes already made persist and no result is stored. -/
def bulkFinish (nfiles : Nat) (st1 : SysState) (all_data : List Json) (jid : String) :
    SysState :=
  let m2 := { st1.dashboard_metrics with
    total_documents := st1.dashboard_metrics.total_documents + nfiles,
    total_entries := st1.dashboard_metrics.total_entries + all_data.length }
  match sumHoursPartial all_data st1.dashboard_metrics.total_hours with
  | (hoursVal, false) =>
    let st2 := { st1 with dashboard_metrics := { m2 with total_hours := hoursVal } }
    let st3 := { st2 with processing_results := aset st2.processing_results jid all_data }
    modifyStatus st3 jid fun js =>
      { js with status := JStatus.completed, total_entries := all_data.length }
  | (hoursVal, true) =>
    let st2 := { st1 with dashboard_metrics := { m2 with total_hours := hoursVal } }
    modifyStatus st2 jid fun js =>
      { js with status := JStatus.error, error := some "unsupported operand type" }

/-- Model of `process_files_bulk files job_id` (lines 299–336): run the files in
order, then finish — metrics, result storage and the final status
transition. -/
def process_files_bulk (files : List FileSpec) (jid : String) (st : SysState) : SysState :=
  let r := runFiles files jid st
  bulkFinish files.length r.1 r.2.1 jid

/-- The initial status record written by the `/process-bulk` route (lines
1069–1078) once `total` documents are accepted. -/
def initial_status (total : Nat) : JobStatus :=
  { status := JStatus.processing, total := total, processed := 0,
    current_file := "", total_entries := 0, error := none }

/-- The synchronous part of `/process-bulk` for an accepted file list:
mint the status record, then hand the files to the background worker. -/
def process_bulk_submit (st : SysState) (jid : String) (files : List FileSpec) : SysState :=
  { st with processing_status := aset st.processing_status jid (initial_status files.length) }

/-- Every state of one job's life observable by a status poll: the state at
submission, the per-file intermediate states, and the final state. -/
def jobTrace (files : List FileSpec) (jid : String) (st : SysState) : List SysState :=
  st :: (runFiles files jid st).2.2 ++ [process_files_bulk files jid st]

/-! ## The export generator and the download endpoint -/

/-- Values openpyxl accepts for a worksheet cell: scalars (strings, numbers,
bools, None); a list or dict value makes `ws.cell(..., value=...)` raise
`ValueError` (app.py lines 362–368). -/
def cellOk : Json → Bool
  | Json.arr _ => false
  | Json.obj _ => false
  | _ => true

/-- One data row of `create_excel_file` (lines 361–373): the seven
`entry.get(...)` cell writes (their defaults are all scalars), then the
yellow-highlight check `entry.get('submission_status', '').lower()`, which
raises `AttributeError` on any non-string value (line 371); a non-dict
entry raises already at `.get`. -/
def renderOk : Json → Bool
  | Json.obj kvs =>
    (["employee_name", "date", "hours", "submission_status", "week",
      "total_hours", "source_file"].all fun k =>
        match alookup kvs k with
        | some v => cellOk v
        | none => true) &&
    (match alookup kvs "submission_status" with
     | none => true
     | some (Json.str _) => true
     | some _ => false)
  | _ => false

/-- Model of `create_excel_file data` (lines 338–388): succeeds iff every
row renders (header styling and the width-adjustment loop, whose `try` body
has `except: pass`, are not fallible); only success or raise is observable —
the workbook is discarded when any row raises. -/
def create_excel_file (data : List Json) : Except Unit Unit :=
  if data.all renderOk then .ok () else .error ()

/-- The observable responses of `/download/<job_id>`. -/
inductive DownloadResp where
  | notFound404 : DownloadResp   -- 404 \x7b'error': 'Results not found'\x7d
  | noData400 : DownloadResp     -- 400 \x7b'error': 'No data extracted'\x7d
  | file (data : List Json) : DownloadResp  -- 200, the spreadsheet built from `data`
  | serverError500 : DownloadResp  -- 500, the route's catch-all `except` (line 1143)
  deriving Repr, DecidableEq

/-- Model of `download_result job_id` (lines 1107–1145): keyed on
`processing_results`; absent → 404, empty data → 400; otherwise build the
spreadsheet — a raise inside `create_excel_file` hits the route's `except`
and returns 500 *before* the `del` statements, deleting nothing — and on
success delete both the result and the status record and return the file. -/
def download_result (st : SysState) (jid : String) : DownloadResp × SysState :=
  match alookup st.processing_results jid with
  | none => (DownloadResp.notFound404, st)
  | some data =>
    if data.isEmpty then (DownloadResp.noData400, st)
    else
      match create_excel_file data with
      | .error _ => (DownloadResp.serverError500, st)
      | .ok _ =>
        (DownloadResp.file data,
         { st with processing_results := aerase st.processing_results jid,
                   processing_status := aerase st.processing_status jid })

/-! ## Dictionary lemmas -/

theorem alookup_aset_self {β : Type} (m : List (String × β)) (k : String) (v : β) :
    alookup (aset m k v) k = some v := by
  induction m with
  | nil => simp [aset, alookup]
  | cons p t ih =>
    obtain ⟨k', v'⟩ := p
    by_cases h : k' = k
    · simp [aset, h, alookup]
    · simp [aset, h, alookup, ih]

theorem alookup_aset_ne {β : Type} (m : List (String × β)) (k k' : String) (v : β)
    (h : k ≠ k') : alookup (aset m k v) k' = alookup m k' := by
  induction m with
  | nil => simp [aset, alookup, h]
  | cons p t ih =>
    obtain ⟨k'', v''⟩ := p
    by_cases h2 : k'' = k
    · subst h2; simp [aset, alookup, h]
    · simp [aset, h2, alookup, ih]

theorem alookup_aerase_self {β : Type} (m : List (String × β)) (k : String) :
    alookup (aerase m k) k = none := by
  induction m with
  | nil => simp [aerase, alookup]
  | cons p t ih =>
    obtain ⟨k', v'⟩ := p
    by_cases h : k' = k
    · simpa [aerase, h] using ih
    · simpa [aerase, List.filter_cons, h, alookup] using ih

/-! ## Claim C4: destructive single-shot download (corrected) -/

/-- A state with one job mid-processing and nothing else (also the fresh
submission state used by the job-run claims). -/
def c5State : SysState :=
  { processing_results := [],
    processing_status := [("j1", initial_status 1)],
    dashboard_metrics := ⟨0, ⟨0, 0⟩, 0, 0⟩ }

/-- A document whose single batch parses to an entry with a *numeric*
`submission_status`: the hours accumulation passes (its `hours` is numeric)
so the job completes, but rendering the spreadsheet raises. -/
def badStatusFile : FileSpec :=
  { name := "bad.docx", images := [0],
    infer := fun _ _ =>
      Except.ok "[\x7b\"submission_status\": 5, \"hours\": 8.0\x7d]" }

/-- C4 counterexample: a reachable completed job with a non-empty result —
one entry whose `submission_status` is the number 5, which survives the
hours accumulation — on which the claim fails: the first retrieval raises
inside `create_excel_file` (`.lower()` on an int, app.py line 371), the
route's catch-all returns 500 *without* removing either record, and a
second retrieval repeats the 500 instead of reporting not-found. -/
theorem c4_counterexample :
    (alookup (process_files_bulk [badStatusFile] "j1" c5State).processing_status
      "j1").map (fun js => js.status) = some JStatus.completed ∧
    alookup (process_files_bulk [badStatusFile] "j1" c5State).processing_results
      "j1" = some [Json.obj [("submission_status", Json.num ⟨5, 0⟩),
                             ("hours", Json.num ⟨80, 1⟩),
                             ("source_file", Json.str "bad.docx")]] ∧
    (download_result (process_files_bulk [badStatusFile] "j1" c5State) "j1").1 =
      DownloadResp.serverError500 ∧
    (download_result (process_files_bulk [badStatusFile] "j1" c5State) "j1").2 =
      process_files_bulk [badStatusFile] "j1" c5State ∧
    (download_result
      (download_result (process_files_bulk [badStatusFile] "j1" c5State) "j1").2
      "j1").1 = DownloadResp.serverError500 := by
  decide

/-- C4 (amended): for a job that completed with a non-empty result whose
entries all render to spreadsheet cells without raising, the first download
returns the file and removes both the status record and the result, and a
second download of the same id reports not-found; when rendering raises, the
route instead returns a 500 server error and removes neither record. -/
theorem c4_download_single_shot (st : SysState) (jid : String) (js : JobStatus)
    (data : List Json)
    (_hjs : alookup st.processing_status jid = some js)
    (_hcomp : js.status = JStatus.completed)
    (hres : alookup st.processing_results jid = some data)
    (hne : data.isEmpty = false) :
    (create_excel_file data = Except.ok () →
      (download_result st jid).1 = DownloadResp.file data ∧
      alookup (download_result st jid).2.processing_results jid = none ∧
      alookup (download_result st jid).2.processing_status jid = none ∧
      (download_result (download_result st jid).2 jid).1 =
        DownloadResp.notFound404) ∧
    (create_excel_file data = Except.error () →
      (download_result st jid).1 = DownloadResp.serverError500 ∧
      (download_result st jid).2 = st) := by
  constructor
  · intro hxl
    have h1 : download_result st jid =
        (DownloadResp.file data,
         { st with processing_results := aerase st.processing_results jid,
                   processing_status := aerase st.processing_status jid }) := by
      simp [download_result, hres, hne, hxl]
    rw [h1]
    refine ⟨rfl, alookup_aerase_self _ _, alookup_aerase_self _ _, ?_⟩
    simp [download_result, alookup_aerase_self]
  · intro hxl
    simp [download_result, hres, hne, hxl]

/-- A state holding one completed job whose entry renders cleanly, for the
first half of the C4 witness. -/
def c4State : SysState :=
  { processing_results := [("j1", [Json.obj [("hours", Json.num ⟨80, 1⟩)]])],
    processing_status := [("j1",
      { status := JStatus.completed, total := 1, processed := 1,
        current_file := "a.docx", total_entries := 1, error := none })],
    dashboard_metrics := ⟨1, ⟨80, 1⟩, 1, 1⟩ }

/-- A state holding one completed job whose entry does not render (numeric
`submission_status`), for the second half of the C4 witness. -/
def c4BadState : SysState :=
  { processing_results := [("j2", [Json.obj [("submission_status", Json.num ⟨5, 0⟩),
                                             ("hours", Json.num ⟨80, 1⟩)]])],
    processing_status := [("j2",
      { status := JStatus.completed, total := 1, processed := 1,
        current_file := "bad.docx", total_entries := 1, error := none })],
    dashboard_metrics := ⟨1, ⟨80, 1⟩, 1, 1⟩ }

/-- Witness for C4 (amended): the renderable entry is downloaded once and
gone, the unrenderable one yields 500 and an unchanged state. -/
theorem c4_download_single_shot_witness :
    ((download_result c4State "j1").1 =
      DownloadResp.file [Json.obj [("hours", Json.num ⟨80, 1⟩)]] ∧
     alookup (download_result c4State "j1").2.processing_results "j1" = none ∧
     alookup (download_result c4State "j1").2.processing_status "j1" = none ∧
     (download_result (download_result c4State "j1").2 "j1").1 =
       DownloadResp.notFound404) ∧
    ((download_result c4BadState "j2").1 = DownloadResp.serverError500 ∧
     (download_result c4BadState "j2").2 = c4BadState) :=
  ⟨(c4_download_single_shot c4State "j1"
      { status := JStatus.completed, total := 1, processed := 1,
        current_file := "a.docx", total_entries := 1, error := none }
      [Json.obj [("hours", Json.num ⟨80, 1⟩)]]
      (by decide) (by decide) (by decide) (by decide)).1 (by decide),
   (c4_download_single_shot c4BadState "j2"
      { status := JStatus.completed, total := 1, processed := 1,
        current_file := "bad.docx", total_entries := 1, error := none }
      [Json.obj [("submission_status", Json.num ⟨5, 0⟩), ("hours", Json.num ⟨80, 1⟩)]]
      (by decide) (by decide) (by decide) (by decide)).2 (by decide)⟩

/-! ## Claim C5: the error for early retrieval (corrected) -/

/-- C5 counterexample: downloading the still-processing job `j1` yields the
same `404 Results not found` response as downloading the never-submitted id
`never` — not a distinct client error. -/
theorem c5_counterexample :
    (alookup c5State.processing_status "j1").map (fun js => js.status) =
      some JStatus.processing ∧
    alookup c5State.processing_status "never" = none ∧
    (download_result c5State "j1").1 = DownloadResp.notFound404 ∧
    (download_result c5State "never").1 = DownloadResp.notFound404 ∧
    (download_result c5State "j1").1 = (download_result c5State "never").1 := by
  decide

/-- C5 (amended): the download route keys on `processing_results`, which a
job only has after completion, so retrieval while the job is still
processing is rejected with the same not-found error as a never-submitted
id; only a completed job with zero entries gets its own distinct client
error (`400 No data extracted`). -/
theorem c5_early_retrieval_errors (st : SysState) (jid : String) :
    (alookup st.processing_results jid = none →
      (download_result st jid).1 = DownloadResp.notFound404) ∧
    (alookup st.processing_results jid = some [] →
      (download_result st jid).1 = DownloadResp.noData400 ∧
      DownloadResp.noData400 ≠ DownloadResp.notFound404) := by
  constructor
  · intro h; simp [download_result, h]
  · intro h; simp [download_result, h]

/-- Witness for C5 (amended) at `c5State`. -/
theorem c5_early_retrieval_errors_witness :
    (download_result c5State "j1").1 = DownloadResp.notFound404 ∧
    (download_result { c5State with processing_results := [("j0", [])] } "j0").1 =
      DownloadResp.noData400 ∧
    DownloadResp.noData400 ≠ DownloadResp.notFound404 :=
  ⟨(c5_early_retrieval_errors c5State "j1").1 (by decide),
   ((c5_early_retrieval_errors { c5State with processing_results := [("j0", [])] } "j0").2
      (by decide)).1,
   ((c5_early_retrieval_errors { c5State with processing_results := [("j0", [])] } "j0").2
      (by decide)).2⟩

/-! ## Claim C9: the worker absorbs all per-file failures -/

/-- C9: `process_single_file` never propagates an exception into the job
loop (its return type is total): a file with zero embedded images yields the
empty entry list immediately, and whenever the body raises at any step the
catch-all converts the failure into the empty entry list. -/
theorem c9_worker_absorbs_failures (st : SysState) (f : FileSpec) (jid : String)
    (h : f.images = [] ∨ (process_single_file_body st f jid).2.isOk = false) :
    (process_single_file st f jid).2 = [] := by
  cases h with
  | inl h0 =>
    simp only [process_single_file, process_single_file_body, h0]
    by_cases hk : (alookup st.processing_status jid).isNone
    · simp [hk]
    · simp [hk]
  | inr h0 =>
    rcases hb : process_single_file_body st f jid with ⟨st', r⟩
    rw [hb] at h0
    cases r with
    | ok data => simp [Except.isOk, Except.toBool] at h0
    | error e => simp [process_single_file, hb]

/-- Witness for C9: a document yielding no images produces `[]`. -/
theorem c9_worker_absorbs_failures_witness :
    (process_single_file c5State
      { name := "empty.docx", images := [], infer := fun _ _ => Except.error () }
      "j1").2 = [] :=
  c9_worker_absorbs_failures c5State
    { name := "empty.docx", images := [], infer := fun _ _ => Except.error () }
    "j1" (Or.inl rfl)

/-! ## Claim C10: a non-object entry in one batch loses the whole file -/

/-- A five-image document: the first batch parses to one good entry, the
second batch's array contains a bare string. -/
def c10File : FileSpec :=
  { name := "mixed.docx", images := [0, 1, 2, 3, 4],
    infer := fun i _ =>
      if i = 0 then Except.ok "[\x7b\"employee_name\":\"A\",\"hours\":8.0\x7d]"
      else Except.ok "[\"oops\"]" }

/-- C10: there is a response (here: batch 2 returns `["oops"]`, an array
with a non-object element) for which the batch engine successfully
accumulates entries — including the good entry of batch 1 — yet the
`source_file` tagging raises on the non-object entry, the worker's catch-all
converts the failure, and the whole file returns the empty list, losing the
entries already parsed. -/
theorem c10_tagging_loses_parsed_entries :
    process_images_in_batches c10File.images c10File.infer =
      [Json.obj [("employee_name", Json.str "A"), ("hours", Json.num ⟨80, 1⟩)],
       Json.str "oops"] ∧
    (process_single_file_body c5State c10File "j1").2 = Except.error () ∧
    (process_single_file c5State c10File "j1").2 = [] := by
  decide

/-! ## State-effect lemmas for the orchestrator -/

theorem modifyStatus_metrics (st : SysState) (jid : String) (f : JobStatus → JobStatus) :
    (modifyStatus st jid f).dashboard_metrics = st.dashboard_metrics := by
  simp only [modifyStatus]
  cases alookup st.processing_status jid <;> simp

theorem modifyStatus_results (st : SysState) (jid : String) (f : JobStatus → JobStatus) :
    (modifyStatus st jid f).processing_results = st.processing_results := by
  simp only [modifyStatus]
  cases alookup st.processing_status jid <;> simp

theorem modifyStatus_lookup (st : SysState) (jid : String) (f : JobStatus → JobStatus)
    (js : JobStatus) (h : alookup st.processing_status jid = some js) :
    alookup (modifyStatus st jid f).processing_status jid = some (f js) := by
  simp [modifyStatus, h, alookup_aset_self]

/-- The worker never touches the result table, the documents/entries/hours
metrics — only the status record and the image counter. -/
theorem process_single_file_preserves (st : SysState) (f : FileSpec) (jid : String) :
    (process_single_file st f jid).1.processing_results = st.processing_results ∧
    (process_single_file st f jid).1.dashboard_metrics.total_documents =
      st.dashboard_metrics.total_documents ∧
    (process_single_file st f jid).1.dashboard_metrics.total_entries =
      st.dashboard_metrics.total_entries ∧
    (process_single_file st f jid).1.dashboard_metrics.total_hours =
      st.dashboard_metrics.total_hours := by
  rcases hl : alookup st.processing_status jid with _ | js
  · simp [process_single_file, process_single_file_body, hl]
  · simp only [process_single_file, process_single_file_body, statusIncrement,
      modifyStatus, hl, Option.isNone_some, Bool.false_eq_true, if_false]
    by_cases him : f.images.isEmpty
    · simp [him]
    · simp only [him, Bool.false_eq_true, if_false]
      cases hx : extract_timesheet_data_with_claude f.images f.name f.infer with
      | ok data => simp
      | error e => simp

/-- The status record after one worker call: `processed` has gone up by one
and `current_file` holds the file's name; the other fields are unchanged. -/
theorem process_single_file_status (st : SysState) (f : FileSpec) (jid : String)
    (js : JobStatus) (h : alookup st.processing_status jid = some js) :
    alookup (process_single_file st f jid).1.processing_status jid =
      some { js with processed := js.processed + 1, current_file := f.name } := by
  simp only [process_single_file, process_single_file_body, statusIncrement,
    modifyStatus, h, Option.isNone_some, Bool.false_eq_true, if_false]
  by_cases him : f.images.isEmpty
  · simp [him, alookup_aset_self]
  · simp only [him, Bool.false_eq_true, if_false]
    cases hx : extract_timesheet_data_with_claude f.images f.name f.infer with
    | ok data => simp [alookup_aset_self]
    | error e => simp [alookup_aset_self]

theorem statusIncrement_status (st : SysState) (f : FileSpec) (jid : String)
    (js : JobStatus) (h : alookup st.processing_status jid = some js) :
    alookup (statusIncrement st f jid).processing_status jid =
      some { js with processed := js.processed + 1, current_file := f.name } :=
  modifyStatus_lookup st jid _ js h

theorem runFiles_preserves (files : List FileSpec) (jid : String) :
    ∀ st : SysState,
      (runFiles files jid st).1.processing_results = st.processing_results ∧
      (runFiles files jid st).1.dashboard_metrics.total_documents =
        st.dashboard_metrics.total_documents ∧
      (runFiles files jid st).1.dashboard_metrics.total_entries =
        st.dashboard_metrics.total_entries ∧
      (runFiles files jid st).1.dashboard_metrics.total_hours =
        st.dashboard_metrics.total_hours := by
  induction files with
  | nil => intro st; simp [runFiles]
  | cons f t ih =>
    intro st
    have hw := process_single_file_preserves st f jid
    rcases hw1 : process_single_file st f jid with ⟨st1, data⟩
    rw [hw1] at hw
    have hr := ih st1
    rcases hr1 : runFiles t jid st1 with ⟨st2, rest, tr⟩
    rw [hr1] at hr
    simp only [runFiles, hw1, hr1]
    exact ⟨hr.1.trans hw.1, hr.2.1.trans hw.2.1, hr.2.2.1.trans hw.2.2.1,
      hr.2.2.2.trans hw.2.2.2⟩

theorem runFiles_status (files : List FileSpec) (jid : String) :
    ∀ (st : SysState) (js : JobStatus), alookup st.processing_status jid = some js →
      ∃ js', alookup (runFiles files jid st).1.processing_status jid = some js' ∧
        js'.status = js.status ∧ js'.total = js.total ∧
        js'.processed = js.processed + files.length ∧
        js'.total_entries = js.total_entries ∧ js'.error = js.error := by
  induction files with
  | nil =>
    intro st js h
    exact ⟨js, by simpa [runFiles] using h, rfl, rfl, by simp, rfl, rfl⟩
  | cons f t ih =>
    intro st js h
    have hst := process_single_file_status st f jid js h
    rcases hw1 : process_single_file st f jid with ⟨st1, data⟩
    rw [hw1] at hst
    obtain ⟨js', h1, h2, h3, h4, h5, h6⟩ := ih st1 _ hst
    rcases hr1 : runFiles t jid st1 with ⟨st2, rest, tr⟩
    rw [hr1] at h1
    refine ⟨js', by simp only [runFiles, hw1, hr1]; exact h1, h2, h3, ?_, h5, h6⟩
    have h4' : js'.processed = js.processed + 1 + t.length := h4
    simp only [List.length_cons]
    omega

theorem runFiles_trace (files : List FileSpec) (jid : String) :
    ∀ (st : SysState) (js : JobStatus), alookup st.processing_status jid = some js →
      ∀ s ∈ (runFiles files jid st).2.2,
        ∃ js', alookup s.processing_status jid = some js' ∧
          js'.total = js.total ∧ js'.processed ≤ js.processed + files.length := by
  induction files with
  | nil => intro st js h s hs; simp [runFiles] at hs
  | cons f t ih =>
    intro st js h s hs
    have hst := process_single_file_status st f jid js h
    rcases hw1 : process_single_file st f jid with ⟨st1, data⟩
    rw [hw1] at hst
    rcases hr1 : runFiles t jid st1 with ⟨st2, rest, tr⟩
    simp only [runFiles, hw1, hr1, List.mem_cons] at hs
    rcases hs with rfl | rfl | hs
    · refine ⟨_, statusIncrement_status st f jid js h, rfl, ?_⟩
      simp only [List.length_cons]
      omega
    · refine ⟨_, hst, rfl, ?_⟩
      simp only [List.length_cons]
      omega
    · obtain ⟨js', h1, h2, h3⟩ := ih st1 _ hst s (by rw [hr1]; exact hs)
      refine ⟨js', h1, h2, ?_⟩
      have h3' : js'.processed ≤ js.processed + 1 + t.length := h3
      simp only [List.length_cons]
      omega

/-- What the finishing step does to the state: the combined outcome of the
completion/error branches, the metric increments, and where the result table
is (not) written. -/
theorem bulkFinish_spec (nfiles : Nat) (st1 : SysState) (all_data : List Json)
    (jid : String) (js1 : JobStatus)
    (h1 : alookup st1.processing_status jid = some js1) :
    ∃ js', alookup (bulkFinish nfiles st1 all_data jid).processing_status jid = some js' ∧
      js'.total = js1.total ∧ js'.processed = js1.processed ∧
      ((js'.status = JStatus.completed ∧
        alookup (bulkFinish nfiles st1 all_data jid).processing_results jid =
          some all_data ∧
        js'.total_entries = all_data.length ∧
        (sumHoursPartial all_data st1.dashboard_metrics.total_hours).2 = false) ∨
       (js'.status = JStatus.error ∧
        (bulkFinish nfiles st1 all_data jid).processing_results =
          st1.processing_results ∧
        (sumHoursPartial all_data st1.dashboard_metrics.total_hours).2 = true)) ∧
      (bulkFinish nfiles st1 all_data jid).dashboard_metrics.total_documents =
        st1.dashboard_metrics.total_documents + nfiles ∧
      (bulkFinish nfiles st1 all_data jid).dashboard_metrics.total_entries =
        st1.dashboard_metrics.total_entries + all_data.length ∧
      (bulkFinish nfiles st1 all_data jid).dashboard_metrics.total_images =
        st1.dashboard_metrics.total_images ∧
      (bulkFinish nfiles st1 all_data jid).dashboard_metrics.total_hours =
        (sumHoursPartial all_data st1.dashboard_metrics.total_hours).1 := by
  simp only [bulkFinish]
  rcases hsum : sumHoursPartial all_data st1.dashboard_metrics.total_hours with ⟨hv, raised⟩
  cases raised with
  | false =>
    refine ⟨_, modifyStatus_lookup _ jid _ js1 (by simpa using h1), rfl, rfl,
      Or.inl ⟨rfl, ?_, rfl, rfl⟩, ?_, ?_, ?_, ?_⟩
    · rw [modifyStatus_results]
      exact alookup_aset_self _ jid all_data
    · rw [modifyStatus_metrics]
    · rw [modifyStatus_metrics]
    · rw [modifyStatus_metrics]
    · rw [modifyStatus_metrics]
  | true =>
    refine ⟨_, modifyStatus_lookup _ jid _ js1 (by simpa using h1), rfl, rfl,
      Or.inr ⟨rfl, ?_, rfl⟩, ?_, ?_, ?_, ?_⟩
    · rw [modifyStatus_results]
    · rw [modifyStatus_metrics]
    · rw [modifyStatus_metrics]
    · rw [modifyStatus_metrics]
    · rw [modifyStatus_metrics]

/-- The combined effect of a whole background run on the job's status
record, result entry, and metrics. -/
theorem process_files_bulk_spec (files : List FileSpec) (jid : String) (st : SysState)
    (js : JobStatus) (h : alookup st.processing_status jid = some js) :
    ∃ js', alookup (process_files_bulk files jid st).processing_status jid = some js' ∧
      js'.total = js.total ∧ js'.processed = js.processed + files.length ∧
      ((js'.status = JStatus.completed ∧
        alookup (process_files_bulk files jid st).processing_results jid =
          some (runFiles files jid st).2.1 ∧
        js'.total_entries = (runFiles files jid st).2.1.length ∧
        (sumHoursPartial (runFiles files jid st).2.1
          st.dashboard_metrics.total_hours).2 = false) ∨
       (js'.status = JStatus.error ∧
        (process_files_bulk files jid st).processing_results =
          st.processing_results ∧
        (sumHoursPartial (runFiles files jid st).2.1
          st.dashboard_metrics.total_hours).2 = true)) ∧
      (process_files_bulk files jid st).dashboard_metrics.total_documents =
        st.dashboard_metrics.total_documents + files.length ∧
      (process_files_bulk files jid st).dashboard_metrics.total_entries =
        st.dashboard_metrics.total_entries + (runFiles files jid st).2.1.length ∧
      (process_files_bulk files jid st).dashboard_metrics.total_images =
        (runFiles files jid st).1.dashboard_metrics.total_images ∧
      (process_files_bulk files jid st).dashboard_metrics.total_hours =
        (sumHoursPartial (runFiles files jid st).2.1
          st.dashboard_metrics.total_hours).1 := by
  obtain ⟨js1, h1, h2, h3, h4, h5, h6⟩ := runFiles_status files jid st js h
  have hpres := runFiles_preserves files jid st
  obtain ⟨js', hb1, hb2, hb3, hbcase, hbm1, hbm2, hbm3, hbm4⟩ :=
    bulkFinish_spec files.length (runFiles files jid st).1 (runFiles files jid st).2.1
      jid js1 h1
  rw [hpres.2.2.2] at hbcase hbm4
  refine ⟨js', ?_, ?_, ?_, ?_, ?_, ?_, ?_, ?_⟩
  · simpa [process_files_bulk] using hb1
  · rw [hb2, h3]
  · rw [hb3, h4]
  · rcases hbcase with ⟨hc, hres, hlen, hflag⟩ | ⟨hc, hres, hflag⟩
    · exact Or.inl ⟨hc, by simpa [process_files_bulk] using hres, hlen, hflag⟩
    · exact Or.inr ⟨hc, by rw [process_files_bulk] at *; rw [hres, hpres.1], hflag⟩
  · rw [process_files_bulk] at *; rw [hbm1, hpres.2.1]
  · rw [process_files_bulk] at *; rw [hbm2, hpres.2.2.1]
  · simpa [process_files_bulk] using hbm3
  · simpa [process_files_bulk] using hbm4

/-! ## Claim C6: metric updates versus completion (corrected) -/

/-- A document whose single batch parses to an entry with a non-numeric
`hours` value: the orchestrator's hours accumulation raises on it and the
job ends in the error state. -/
def errFile : FileSpec :=
  { name := "t.docx", images := [0],
    infer := fun _ _ => Except.ok "[\x7b\"hours\": \"eight\"\x7d]" }

/-- A document whose single batch parses to one well-formed entry. -/
def goodFile : FileSpec :=
  { name := "good.docx", images := [0],
    infer := fun _ _ => Except.ok "[\x7b\"hours\": 8.0\x7d]" }

/-- A document whose single batch parses to two entries, the first with
numeric hours and the second with a string `hours` value: the orchestrator's
hours accumulation adds the first and then raises on the second. -/
def hoursErrFile : FileSpec :=
  { name := "t2.docx", images := [0],
    infer := fun _ _ =>
      Except.ok "[\x7b\"hours\": 8.0\x7d, \x7b\"hours\": \"eight\"\x7d]" }

/-- C6 counterexample: a job that ends in the error state (the hours
accumulation raises on its second entry's string `hours`) nevertheless
leaves all four metrics changed — documents, entries, and images
incremented, and the hours already added before the raise kept — not
unchanged as the claim states. -/
theorem c6_counterexample :
    (alookup (process_files_bulk [hoursErrFile] "j1" c5State).processing_status
      "j1").map (fun js => js.status) = some JStatus.error ∧
    (process_files_bulk [hoursErrFile] "j1" c5State).dashboard_metrics.total_documents
      = 1 ∧
    (process_files_bulk [hoursErrFile] "j1" c5State).dashboard_metrics.total_entries
      = 2 ∧
    (process_files_bulk [hoursErrFile] "j1" c5State).dashboard_metrics.total_images
      = 1 ∧
    (process_files_bulk [hoursErrFile] "j1" c5State).dashboard_metrics.total_hours
      = ⟨80, 1⟩ ∧
    c5State.dashboard_metrics = ⟨0, ⟨0, 0⟩, 0, 0⟩ := by
  decide

/-- C6 (amended): for a job that completes and stores a result, the
documents metric is incremented exactly once — by the number of accepted
files — and the entries metric exactly once — by the number of stored
entries — in the completion step, and the hours metric ends at the
entry-by-entry sum of the stored entries' hours added to its prior value
(completion happens only when that accumulation raises on no entry); the
image counter is instead incremented per file during processing (the
completion step leaves it unchanged).  A job that ends in the error state
(an exception during the hours accumulation) keeps the metric updates
already made, including the hours added before the raising entry. -/
theorem c6_metrics_at_completion (files : List FileSpec) (jid : String) (st : SysState)
    (js : JobStatus) (data : List Json)
    (hjs : alookup st.processing_status jid = some js)
    (hfresh : alookup st.processing_results jid = none)
    (hdone : alookup (process_files_bulk files jid st).processing_results jid =
      some data) :
    (process_files_bulk files jid st).dashboard_metrics.total_documents =
      st.dashboard_metrics.total_documents + files.length ∧
    (process_files_bulk files jid st).dashboard_metrics.total_entries =
      st.dashboard_metrics.total_entries + data.length ∧
    (process_files_bulk files jid st).dashboard_metrics.total_hours =
      (sumHoursPartial data st.dashboard_metrics.total_hours).1 ∧
    (sumHoursPartial data st.dashboard_metrics.total_hours).2 = false ∧
    (process_files_bulk files jid st).dashboard_metrics.total_images =
      (runFiles files jid st).1.dashboard_metrics.total_images := by
  obtain ⟨js', h1, h2, h3, hcase, hm1, hm2, hm3, hm4⟩ :=
    process_files_bulk_spec files jid st js hjs
  rcases hcase with ⟨hc, hres, hlen, hflag⟩ | ⟨hc, hres, hflag⟩
  · have hdata : data = (runFiles files jid st).2.1 := by
      rw [hdone] at hres
      exact Option.some.inj hres
    exact ⟨hm1, by rw [hm2, hdata], by rw [hm4, hdata], by rw [hdata]; exact hflag, hm3⟩
  · rw [hres, hfresh] at hdone
    simp at hdone

/-- Witness for C6 (amended) on the completed run of `goodFile`. -/
theorem c6_metrics_at_completion_witness :
    (process_files_bulk [goodFile] "j1" c5State).dashboard_metrics.total_documents =
      c5State.dashboard_metrics.total_documents + [goodFile].length ∧
    (process_files_bulk [goodFile] "j1" c5State).dashboard_metrics.total_entries =
      c5State.dashboard_metrics.total_entries +
        [Json.obj [("hours", Json.num ⟨80, 1⟩),
                   ("source_file", Json.str "good.docx")]].length ∧
    (process_files_bulk [goodFile] "j1" c5State).dashboard_metrics.total_hours =
      (sumHoursPartial [Json.obj [("hours", Json.num ⟨80, 1⟩),
                                  ("source_file", Json.str "good.docx")]]
        c5State.dashboard_metrics.total_hours).1 ∧
    (sumHoursPartial [Json.obj [("hours", Json.num ⟨80, 1⟩),
                                ("source_file", Json.str "good.docx")]]
      c5State.dashboard_metrics.total_hours).2 = false ∧
    (process_files_bulk [goodFile] "j1" c5State).dashboard_metrics.total_images =
      (runFiles [goodFile] "j1" c5State).1.dashboard_metrics.total_images :=
  c6_metrics_at_completion [goodFile] "j1" c5State (initial_status 1)
    [Json.obj [("hours", Json.num ⟨80, 1⟩), ("source_file", Json.str "good.docx")]]
    (by decide) (by decide) (by decide)

/-! ## Claim C7: Job/JobResult coexistence (corrected) -/

/-- C7 counterexample: a job that terminates in the error state keeps its
Job status record but never gets a JobResult — the two do not exist
together, and this is terminal, not the processing window. -/
theorem c7_counterexample :
    (alookup (process_files_bulk [errFile] "j1" c5State).processing_status "j1").map
      (fun js => js.status) = some JStatus.error ∧
    alookup (process_files_bulk [errFile] "j1" c5State).processing_results "j1" =
      none := by
  decide

/-- C7 (amended): at the end of a background run, a job that completed has
both its status record and its result entry, while a job that terminated in
the error state keeps its status record (status `error`) with no result
entry ever created — coexistence holds for completed jobs only, and the
error state is a further lasting exception beyond the processing window. -/
theorem c7_job_result_coexistence (files : List FileSpec) (jid : String)
    (st : SysState) (js : JobStatus)
    (hjs : alookup st.processing_status jid = some js)
    (hfresh : alookup st.processing_results jid = none) :
    ∃ js', alookup (process_files_bulk files jid st).processing_status jid =
        some js' ∧
      ((js'.status = JStatus.completed ∧
        ∃ data, alookup (process_files_bulk files jid st).processing_results jid =
          some data) ∨
       (js'.status = JStatus.error ∧
        alookup (process_files_bulk files jid st).processing_results jid = none)) := by
  obtain ⟨js', h1, _, _, hcase, _, _, _, _⟩ := process_files_bulk_spec files jid st js hjs
  refine ⟨js', h1, ?_⟩
  rcases hcase with ⟨hc, hres, _, _⟩ | ⟨hc, hres, _⟩
  · exact Or.inl ⟨hc, _, hres⟩
  · exact Or.inr ⟨hc, by rw [hres]; exact hfresh⟩

/-- Witness for C7 (amended) on the error-terminating run of `errFile`. -/
theorem c7_job_result_coexistence_witness :
    ∃ js', alookup (process_files_bulk [errFile] "j1" c5State).processing_status "j1" =
        some js' ∧
      ((js'.status = JStatus.completed ∧
        ∃ data, alookup (process_files_bulk [errFile] "j1" c5State).processing_results
          "j1" = some data) ∨
       (js'.status = JStatus.error ∧
        alookup (process_files_bulk [errFile] "j1" c5State).processing_results "j1" =
          none)) :=
  c7_job_result_coexistence [errFile] "j1" c5State (initial_status 1)
    (by decide) (by decide)

/-! ## Claim C8: `processed` never exceeds `total` -/

/-- C8: from submission (where `total` is the number of accepted documents
and `processed` is 0) through every state observable by a status poll —
after every per-file status write and at the end of the run — the job's
`processed` counter never exceeds `total`. -/
theorem c8_processed_le_total (files : List FileSpec) (jid : String) (st : SysState)
    (s : SysState) (hs : s ∈ jobTrace files jid (process_bulk_submit st jid files))
    (js' : JobStatus) (h : alookup s.processing_status jid = some js') :
    js'.processed ≤ js'.total := by
  have h0 : alookup (process_bulk_submit st jid files).processing_status jid =
      some (initial_status files.length) := by
    simp [process_bulk_submit, alookup_aset_self]
  simp only [jobTrace, List.mem_cons, List.mem_append, List.mem_singleton] at hs
  rcases hs with (rfl | hs) | (rfl | hnil)
  · rw [h0] at h
    obtain rfl : initial_status files.length = js' := Option.some.inj h
    simp [initial_status]
  · obtain ⟨js2, h2, htot, hproc⟩ := runFiles_trace files jid _ _ h0 s hs
    rw [h] at h2
    obtain rfl : js' = js2 := Option.some.inj h2
    simp only [initial_status] at htot hproc
    omega
  · obtain ⟨js2, h1, h2, h3, _, _, _, _, _⟩ := process_files_bulk_spec files jid _ _ h0
    rw [h] at h1
    obtain rfl : js' = js2 := Option.some.inj h1
    simp only [initial_status] at h2 h3
    omega
  · exact absurd hnil (List.not_mem_nil s)

/-- Witness for C8 at the state right after `goodFile`'s status write. -/
theorem c8_processed_le_total_witness :
    ({ status := JStatus.processing, total := 1, processed := 1,
       current_file := "good.docx", total_entries := 0, error := none } :
      JobStatus).processed ≤
    ({ status := JStatus.processing, total := 1, processed := 1,
       current_file := "good.docx", total_entries := 0, error := none } :
      JobStatus).total :=
  c8_processed_le_total [goodFile] "j1" c5State
    (statusIncrement (process_bulk_submit c5State "j1" [goodFile]) goodFile "j1")
    (by decide)
    { status := JStatus.processing, total := 1, processed := 1,
      current_file := "good.docx", total_entries := 0, error := none }
    (by decide)

end TimeVerify
